import Mathlib

/-!
Verification development for the scm-slang parser front end.

The development shallowly embeds the three-stage parsing pipeline of the
repository: the tokenizer (src/parser lexer), the grouping stage, and the
semantic parser (class SchemeParser), together with the older
grouping.ts Group smart constructor and the Token record.

Machine integers do not occur; positions and lengths are natural numbers.
Fallible code is embedded in the Except monad.  Recursion through the
datum tree is driven by an explicit fuel parameter; every recursive call
passes the decremented fuel, and exhaustion surfaces as the distinguished
error outOfFuel (the source, being a terminating recursive descent, never
hits it on inputs with enough fuel).
-/

namespace ScmSlang

/-- Source position: line and column, as in types/location. -/
structure Position where
  line : Nat
  col : Nat
deriving DecidableEq, Repr

/-- Modelled from the spec: the Location record of types/location (the file
is absent from the sources; only its uses survive).  A location is a span
from a start position to an end position. -/
structure Location where
  start : Position
  finish : Position
deriving DecidableEq, Repr

/-- Modelled from the spec: Location.merge, used by the parser to merge
the spans of constituent nodes; the merged span runs from the start of
the first location to the end of the second. -/
def Location.merge (a b : Location) : Location :=
  ⟨a.start, b.finish⟩

/-- Token kinds.  This is the union of the TokenType enumerations of the
repository generations: the transpiler enumeration used by SchemeParser
(LEFT_PAREN .. HASH_VECTOR, VECTOR, EOF) together with the SYMBOL,
TRIPLE_DOT and HASH kinds of the tokenizer generation. -/
inductive TokenType where
  | LEFT_PAREN
  | RIGHT_PAREN
  | LEFT_BRACKET
  | RIGHT_BRACKET
  | DOT
  | HASH_SEMICOLON
  | IDENTIFIER
  | NUMBER
  | BOOLEAN
  | STRING
  | IF
  | LET
  | COND
  | ELSE
  | DEFINE
  | LAMBDA
  | APOSTROPHE
  | BACKTICK
  | COMMA
  | COMMA_AT
  | QUOTE
  | QUASIQUOTE
  | UNQUOTE
  | UNQUOTE_SPLICING
  | SET
  | BEGIN
  | DELAY
  | IMPORT
  | EXPORT
  | JS_IMPORT
  | JS_EXPORT
  | HASH_VECTOR
  | VECTOR
  | SYMBOL
  | TRIPLE_DOT
  | HASH
  | EOF
deriving DecidableEq, Repr

/-- Runtime literal payload of a token (the untyped literal field). -/
inductive Literal where
  | none
  | num (value : String)
  | bool (value : Bool)
  | str (value : String)
deriving DecidableEq, Repr

/-- The Token record of types/tokens/token: kind, raw lexeme, literal,
start position and end position.  The start/end character offsets of the
source string are dropped; no embedded code reads them. -/
structure Token where
  type : TokenType
  lexeme : String
  literal : Literal
  pos : Position
  endPos : Position
deriving DecidableEq, Repr

instance : Inhabited Token :=
  ⟨{ type := .EOF, lexeme := "", literal := .none, pos := ⟨1, 0⟩, endPos := ⟨1, 0⟩ }⟩

/-- The Token constructor of src/unnamed/part_004: pos is built from the
given line and column, and endPos is built on the same line at column
col + lexeme.length - 1. -/
def Token.make (type : TokenType) (lexeme : String) (literal : Literal)
    (line col : Nat) : Token :=
  { type := type
    lexeme := lexeme
    literal := literal
    pos := ⟨line, col⟩
    endPos := ⟨line, col + lexeme.length - 1⟩ }

/-- Modelled from the spec: the exact position of the last character of a
lexeme that starts at the given line and column, accounting for line
breaks inside the lexeme (the end position a multi-line token should
record, per the span-exactness requirement of the data model). -/
def lexemeEndPos (lexeme : String) (line col : Nat) : Position :=
  (lexeme.toList.foldl
    (fun p c => if c = '\n' then ⟨p.line + 1, 0⟩ else ⟨p.line, p.col + 1⟩)
    (⟨line, col - 1⟩ : Position))

/-- A datum: either a single token or a group of datums (class Datum of
types/tokens; a Group carries its raw element list, parentheses
included when the group is parenthesized). -/
inductive Datum where
  | tok : Token → Datum
  | grp : List Datum → Datum

instance : Inhabited Datum := ⟨.tok default⟩

/-- First token of a datum, if any (Group.firstToken). -/
def Datum.firstToken? : Datum → Option Token
  | .tok t => some t
  | .grp [] => none
  | .grp (d :: _) => d.firstToken?

/-- Last token of a datum, if any (Group.lastToken). -/
def Datum.lastToken? : Datum → Option Token
  | .tok t => some t
  | .grp [] => none
  | .grp [d] => d.lastToken?
  | .grp (_ :: d :: ds) => Datum.lastToken? (.grp (d :: ds))

/-- Modelled from the spec: the derived source span of a datum, covering
its first to last element (Group.location of the absent
types/tokens/group file). -/
def Datum.location (d : Datum) : Location :=
  match d.firstToken?, d.lastToken? with
  | some f, some l => ⟨f.pos, l.endPos⟩
  | _, _ => ⟨⟨1, 0⟩, ⟨1, 0⟩⟩

/-- Position of a datum: a token reports its pos, a group the start of
its location (the parser reads .pos on tokens and .location.start on
groups). -/
def Datum.startPos : Datum → Position
  | .tok t => t.pos
  | .grp es => (Datum.grp es).location.start

/-- Matching open/close delimiter pair, round with round or square with
square (helper of Group.build in grouping.ts, shared by the newer
group invariants). -/
def matchingParentheses (l r : Token) : Bool :=
  (l.type == .LEFT_PAREN && r.type == .RIGHT_PAREN) ||
    (l.type == .LEFT_BRACKET && r.type == .RIGHT_BRACKET)

/-- Whether a raw element list is parenthesized: its first element is an
open delimiter token (Group.isParenthesized; construction guarantees the
matching close at the other end). -/
def isParenthesizedElems (elems : List Datum) : Bool :=
  match elems.head? with
  | some (.tok t) => t.type == .LEFT_PAREN || t.type == .LEFT_BRACKET
  | _ => false

/-- Internal elements of a group: parentheses stripped when the group is
parenthesized (Group.unwrap). -/
def unwrapElems (elems : List Datum) : List Datum :=
  if isParenthesizedElems elems then (elems.drop 1).dropLast else elems

/-- Number of elements of a group, parentheses ignored (Group.length). -/
def groupLength (elems : List Datum) : Nat :=
  (unwrapElems elems).length

/-- Whether a group merely wraps one single token
(Group.isSingleIdentifier, used by parseExpression to unwrap). -/
def isSingleTokenElems (elems : List Datum) : Bool :=
  match elems with
  | [.tok _] => true
  | _ => false

/-!
The older grouping stage: class Group of
src/parser/ast-generator/grouping.ts, whose private constructor is only
reachable through the static smart constructor Group.build.  A group is
represented by its raw element list; build returns the element list of
the group it constructs (the collapse case returns the inner group's
list unchanged, as the source returns the inner Group object).
-/
namespace OldGroup

/-- Data-type check of Group.build in grouping.ts: symbol, number,
string or boolean token. -/
def isDataType (t : Token) : Bool :=
  t.type == .SYMBOL || t.type == .NUMBER || t.type == .STRING ||
    t.type == .BOOLEAN

/-- The smart constructor Group.build of grouping.ts.  An empty list is
rejected; a singleton group collapses to the inner group; a singleton
token must be a data type; otherwise the first and last elements must be
a matching delimiter pair. -/
def build (elements : List Datum) : Except String (List Datum)
  := match elements with
  | [] => .error "Empty group."
  | [.grp inner] => .ok inner
  | [.tok t] =>
      if isDataType t then .ok [.tok t] else .error "Invalid group."
  | es =>
      match es.head?, es.getLast? with
      | some (.tok l), some (.tok r) =>
          if matchingParentheses l r then .ok es else .error "Invalid group."
      | _, _ => .error "Invalid group."

end OldGroup

/-- Quoting mode of the semantic parser. -/
inductive QuoteMode where
  | NONE
  | QUOTE
  | QUASIQUOTE
deriving DecidableEq, Repr

/-- Chapter ceiling: some n for a finite ceiling, none for the Infinity
default of the SchemeParser constructor. -/
def Chapter : Type := Option Nat

/-- The comparison this.chapter < chapter of validateChapter; Infinity
compares below nothing. -/
def Chapter.lt (c : Chapter) (k : Nat) : Bool :=
  match c with
  | Option.none => false
  | Option.some n => n < k

/-- The closed error taxonomy raised by the grouping and parsing stages.
Each constructor keeps the position (and, for ExpectedForm, the expected
shape string); the source text carried by every error in the source is
one and the same string and is dropped.  outOfFuel marks exhaustion of
the explicit recursion fuel and runtimeType marks spots where the
untyped source would crash on an undefined member access. -/
inductive ParserError where
  | DisallowedToken (pos : Position)
  | UnexpectedForm (pos : Position)
  | UnsupportedToken (pos : Position)
  | ExpectedForm (pos : Position) (expected : String)
  | UnexpectedEOF (pos : Position)
  | outOfFuel
  | runtimeType
deriving DecidableEq, Repr

/-- The AST produced by the semantic parser (scheme-node-types): the
Atomic and Extended node constructors, each owning its merged source
location.  Formal-parameter and identifier lists are carried as
expression lists, as the source casts Expression arrays to Identifier
arrays after validation. -/
inductive Expression where
  | Identifier (loc : Location) (name : String)
  | Symbol (loc : Location) (name : String)
  | NumericLiteral (loc : Location) (value : Literal)
  | BooleanLiteral (loc : Location) (value : Literal)
  | StringLiteral (loc : Location) (value : Literal)
  | Nil (loc : Location)
  | ListExpr (loc : Location) (elements : List Expression)
      (terminator : Option Expression)
  | Vector (loc : Location) (elements : List Expression)
  | Sequence (loc : Location) (expressions : List Expression)
  | Lambda (loc : Location) (body : Expression) (params : List Expression)
      (rest : Option Expression)
  | Definition (loc : Location) (name : Expression) (value : Expression)
  | FunctionDefinition (loc : Location) (name : Expression)
      (body : Expression) (params : List Expression)
      (rest : Option Expression)
  | Conditional (loc : Location) (test : Expression) (consequent : Expression)
      (alternate : Expression)
  | Application (loc : Location) (operator : Expression)
      (operands : List Expression)
  | LetExpr (loc : Location) (identifiers : List Expression)
      (values : List Expression) (body : Expression)
  | CondExpr (loc : Location) (predicates : List Expression)
      (consequents : List Expression) (catchall : Option Expression)
  | Reassignment (loc : Location) (name : Expression) (value : Expression)
  | BeginExpr (loc : Location) (expressions : List Expression)
  | DelayExpr (loc : Location) (expression : Expression)
  | ImportExpr (loc : Location) (source : Expression)
      (identifiers : List Expression) (isJS : Bool)
  | ExportExpr (loc : Location) (definition : Expression) (isJS : Bool)
  | SpliceMarker (loc : Location) (expression : Expression)

instance : Inhabited Expression := ⟨.Nil ⟨⟨1, 0⟩, ⟨1, 0⟩⟩⟩

/-- Location of an expression node (the location field every node owns). -/
def Expression.location : Expression → Location
  | .Identifier loc _ => loc
  | .Symbol loc _ => loc
  | .NumericLiteral loc _ => loc
  | .BooleanLiteral loc _ => loc
  | .StringLiteral loc _ => loc
  | .Nil loc => loc
  | .ListExpr loc _ _ => loc
  | .Vector loc _ => loc
  | .Sequence loc _ => loc
  | .Lambda loc _ _ _ => loc
  | .Definition loc _ _ => loc
  | .FunctionDefinition loc _ _ _ _ => loc
  | .Conditional loc _ _ _ => loc
  | .Application loc _ _ => loc
  | .LetExpr loc _ _ _ => loc
  | .CondExpr loc _ _ _ => loc
  | .Reassignment loc _ _ => loc
  | .BeginExpr loc _ => loc
  | .DelayExpr loc _ => loc
  | .ImportExpr loc _ _ _ => loc
  | .ExportExpr loc _ _ => loc
  | .SpliceMarker loc _ => loc

/-- Instance check used by parseExport: the parsed datum must be a
Definition or a FunctionDefinition node. -/
def Expression.isDefinition : Expression → Bool
  | .Definition _ _ _ => true
  | .FunctionDefinition _ _ _ _ _ => true
  | _ => false

/-!
The semantic parser: class SchemeParser of src/unnamed/part_000.  The
chapter ceiling is the constructor argument; the mutable quoteMode field
is threaded explicitly, each function receiving the mode at entry and
returning the mode it leaves behind.
-/

/-- Chapter rank of the basic forms. -/
def BASIC_CHAPTER : Nat := 1

/-- Chapter rank of the quoting forms. -/
def QUOTING_CHAPTER : Nat := 2

/-- Chapter rank of the vector forms. -/
def VECTOR_CHAPTER : Nat := 3

/-- Chapter rank of the mutation forms. -/
def MUTABLE_CHAPTER : Nat := 3

/-- Location of a token, from its start to its end position
(SchemeParser.toLocation). -/
def toLocation (token : Token) : Location :=
  ⟨token.pos, token.endPos⟩

/-- SchemeParser.validateChapter: fails with DisallowedToken when the
configured ceiling is below the required chapter of the construct. -/
def validateChapter (ch : Chapter) (c : Token) (chapter : Nat) :
    Except ParserError Unit :=
  if Chapter.lt ch chapter then .error (.DisallowedToken c.pos) else .ok ()

/-- Default no-op element verifier of destructureList. -/
def defaultVerifier : Datum → Except ParserError Unit :=
  fun _ => .ok ()

/-- Formals verifier passed to destructureList by parseLambda and
parseDefinition: every element must be an identifier token.  The source
reads formal.pos on the group branch, which is undefined on a Group; the
group start stands in for it. -/
def identifierVerifier : Datum → Except ParserError Unit
  | .grp g => .error (.ExpectedForm (Datum.grp g).startPos "<identifier>")
  | .tok t =>
      if t.type == .IDENTIFIER then .ok ()
      else .error (.ExpectedForm t.pos "<identifier>")

/-- SchemeParser.parseToken: identifiers split on the quote mode into
Identifier or Symbol nodes, literals are self-evaluating, and any other
token is a Symbol inside quotation and an UnexpectedForm error outside. -/
def parseToken (m : QuoteMode) (token : Token) : Except ParserError Expression :=
  match token.type with
  | .IDENTIFIER =>
      .ok (if m = .NONE then Expression.Identifier (toLocation token) token.lexeme
        else Expression.Symbol (toLocation token) token.lexeme)
  | .NUMBER => .ok (.NumericLiteral (toLocation token) token.literal)
  | .BOOLEAN => .ok (.BooleanLiteral (toLocation token) token.literal)
  | .STRING => .ok (.StringLiteral (toLocation token) token.literal)
  | _ =>
      if m ≠ .NONE then .ok (.Symbol (toLocation token) token.lexeme)
      else .error (.UnexpectedForm token.pos)

/-- Identifier collection loop of parseImport: every element of the
identifier group must be an identifier token. -/
def convertImportIds : List Datum → Except ParserError (List Expression)
  | [] => .ok []
  | .grp g :: _ => .error (.ExpectedForm (Datum.grp g).location.start "<identifier>")
  | .tok t :: rest =>
      if t.type == .IDENTIFIER then do
        let ids ← convertImportIds rest
        .ok (Expression.Identifier (toLocation t) t.lexeme :: ids)
      else .error (.ExpectedForm t.pos "<identifier>")

mutual

/-- SchemeParser.parseExpression: a token is dispatched to parseToken, a
group wrapping a single token is unwrapped, any other group goes to
parseGroup. -/
def parseExpression (ch : Chapter) (fuel : Nat) (m : QuoteMode) (d : Datum) :
    Except ParserError (Expression × QuoteMode) :=
  match fuel with
  | 0 => .error .outOfFuel
  | fuel + 1 =>
    match d with
    | .tok t => (parseToken m t).map (fun e => (e, m))
    | .grp elems =>
        if isSingleTokenElems elems then
          match elems with
          | [.tok t] => (parseToken m t).map (fun e => (e, m))
          | _ => .error .runtimeType
        else
          parseGroup ch fuel m elems

/-- SchemeParser.parseGroup: unparenthesized groups are affector groups;
parenthesized groups split on the quote mode into normal forms and
quoted data. -/
def parseGroup (ch : Chapter) (fuel : Nat) (m : QuoteMode) (elems : List Datum) :
    Except ParserError (Expression × QuoteMode) :=
  match fuel with
  | 0 => .error .outOfFuel
  | fuel + 1 =>
    if !(isParenthesizedElems elems) then
      parseAffectorGroup ch fuel m elems
    else
      match m with
      | .NONE => parseNormalGroup ch fuel m elems
      | .QUOTE => parseQuotedGroup ch fuel m elems
      | .QUASIQUOTE => parseQuotedGroup ch fuel m elems

/-- SchemeParser.parseAffectorGroup: the quoting state machine.  The
source destructures group.unwrap() into affector and target and switches
on the affector token kind; runtimeType marks the undefined-member
crashes of the untyped source on malformed shapes. -/
def parseAffectorGroup (ch : Chapter) (fuel : Nat) (m : QuoteMode)
    (elems : List Datum) : Except ParserError (Expression × QuoteMode) :=
  match fuel with
  | 0 => .error .outOfFuel
  | fuel + 1 =>
    match unwrapElems elems with
    | .tok affector :: rest =>
      let target? := rest.head?
      match affector.type with
      | .APOSTROPHE | .QUOTE => do
          validateChapter ch affector QUOTING_CHAPTER
          match target? with
          | none => .error .runtimeType
          | some target =>
            if m ≠ .NONE then do
              let (innerGroup, m1) ← parseExpression ch fuel m target
              let newSymbol := Expression.Symbol (toLocation affector) "quote"
              let newLocation := newSymbol.location.merge innerGroup.location
              pure (Expression.ListExpr newLocation [newSymbol, innerGroup]
                Option.none, m1)
            else do
              let (quotedExpression, _) ← parseExpression ch fuel .QUOTE target
              pure (quotedExpression, QuoteMode.NONE)
      | .BACKTICK | .QUASIQUOTE => do
          validateChapter ch affector QUOTING_CHAPTER
          match target? with
          | none => .error .runtimeType
          | some target =>
            if m ≠ .NONE then do
              let (innerGroup, m1) ← parseExpression ch fuel m target
              let newSymbol := Expression.Symbol (toLocation affector) "quasiquote"
              let newLocation := newSymbol.location.merge innerGroup.location
              pure (Expression.ListExpr newLocation [newSymbol, innerGroup]
                Option.none, m1)
            else do
              let (quasiquotedExpression, _) ← parseExpression ch fuel .QUASIQUOTE target
              pure (quasiquotedExpression, QuoteMode.NONE)
      | .COMMA | .UNQUOTE => do
          validateChapter ch affector QUOTING_CHAPTER
          match m with
          | .NONE => .error (.UnsupportedToken affector.pos)
          | .QUOTE =>
            match target? with
            | none => .error .runtimeType
            | some target => do
              let (innerGroup, m1) ← parseExpression ch fuel m target
              let newSymbol := Expression.Symbol (toLocation affector) "unquote"
              let newLocation := newSymbol.location.merge innerGroup.location
              pure (Expression.ListExpr newLocation [newSymbol, innerGroup]
                Option.none, m1)
          | .QUASIQUOTE =>
            match target? with
            | none => .error .runtimeType
            | some target => do
              let (unquotedExpression, _) ← parseExpression ch fuel .NONE target
              pure (unquotedExpression, QuoteMode.QUASIQUOTE)
      | .COMMA_AT | .UNQUOTE_SPLICING => do
          validateChapter ch affector QUOTING_CHAPTER
          match m with
          | .NONE => .error (.UnexpectedForm affector.pos)
          | .QUOTE =>
            match target? with
            | none => .error .runtimeType
            | some target => do
              let (innerGroup, m1) ← parseExpression ch fuel m target
              let newSymbol := Expression.Symbol (toLocation affector)
                "unquote-splicing"
              let newLocation := newSymbol.location.merge innerGroup.location
              pure (Expression.ListExpr newLocation [newSymbol, innerGroup]
                Option.none, m1)
          | .QUASIQUOTE => .error (.UnsupportedToken affector.pos)
      | .HASH_VECTOR => do
          validateChapter ch affector VECTOR_CHAPTER
          let (vector, _) ← parseVector ch fuel .QUOTE elems
          pure (vector, m)
      | _ => .error (.UnexpectedForm affector.pos)
    | .grp g :: _ =>
        -- the source casts the affector to Token; the kind read on a
        -- group is undefined and falls through to the default branch
        .error (.UnexpectedForm (Datum.grp g).startPos)
    | [] => .error .runtimeType

/-- SchemeParser.parseNormalGroup: special-form dispatch on the first
element, with chapter validation, falling through to a generic
application. -/
def parseNormalGroup (ch : Chapter) (fuel : Nat) (m : QuoteMode)
    (elems : List Datum) : Except ParserError (Expression × QuoteMode) :=
  match fuel with
  | 0 => .error .outOfFuel
  | fuel + 1 =>
    if groupLength elems == 0 then
      .error (.ExpectedForm (Datum.grp elems).location.start "non-empty group")
    else
      match (unwrapElems elems).head? with
      | some (.tok firstElement) =>
        match firstElement.type with
        | .LAMBDA => do
            validateChapter ch firstElement BASIC_CHAPTER
            parseLambda ch fuel m elems
        | .DEFINE => do
            validateChapter ch firstElement BASIC_CHAPTER
            parseDefinition ch fuel m elems
        | .IF => do
            validateChapter ch firstElement BASIC_CHAPTER
            parseConditional ch fuel m elems
        | .LET => do
            validateChapter ch firstElement BASIC_CHAPTER
            parseLet ch fuel m elems
        | .COND => do
            validateChapter ch firstElement BASIC_CHAPTER
            parseExtendedCond ch fuel m elems
        | .QUOTE | .APOSTROPHE | .QUASIQUOTE | .BACKTICK
        | .UNQUOTE | .COMMA | .UNQUOTE_SPLICING | .COMMA_AT => do
            validateChapter ch firstElement QUOTING_CHAPTER
            parseAffectorGroup ch fuel m elems
        | .BEGIN => do
            validateChapter ch firstElement MUTABLE_CHAPTER
            parseBegin ch fuel m elems
        | .DELAY => do
            validateChapter ch firstElement MUTABLE_CHAPTER
            parseDelay ch fuel m elems
        | .SET => do
            validateChapter ch firstElement MUTABLE_CHAPTER
            parseSet ch fuel m elems
        | .IMPORT => do
            validateChapter ch firstElement BASIC_CHAPTER
            parseImport ch fuel m elems false
        | .JS_IMPORT => do
            validateChapter ch firstElement BASIC_CHAPTER
            parseImport ch fuel m elems true
        | .EXPORT => do
            validateChapter ch firstElement BASIC_CHAPTER
            parseExport ch fuel m elems false
        | .JS_EXPORT => do
            validateChapter ch firstElement BASIC_CHAPTER
            parseExport ch fuel m elems true
        | .VECTOR => do
            validateChapter ch firstElement VECTOR_CHAPTER
            parseAffectorGroup ch fuel m elems
        | _ => parseApplication ch fuel m elems
      | some (.grp _) => parseApplication ch fuel m elems
      | none => .error .runtimeType

/-- SchemeParser.parseQuotedGroup: a parenthesized group inside
quotation is a literal list, possibly dotted. -/
def parseQuotedGroup (ch : Chapter) (fuel : Nat) (m : QuoteMode)
    (elems : List Datum) : Except ParserError (Expression × QuoteMode) :=
  match fuel with
  | 0 => .error .outOfFuel
  | fuel + 1 =>
    if groupLength elems == 0 then
      .ok (.Nil (Datum.grp elems).location, m)
    else if groupLength elems == 1 then
      match (unwrapElems elems).head? with
      | some d => do
          let (e, m1) ← parseExpression ch fuel m d
          pure (Expression.ListExpr (Datum.grp elems).location [e] Option.none, m1)
      | none => .error .runtimeType
    else do
      let ((listElements, cdrElement), m1) ←
        destructureList ch fuel m (unwrapElems elems) defaultVerifier
      pure (Expression.ListExpr (Datum.grp elems).location listElements
        cdrElement, m1)

/-- SchemeParser.destructureList: the shared destructuring helper for
lists and formals.  The second-to-last element decides whether the list
is dotted; the optional verifier runs on the tail first, then each
prefix element, before any element is parsed. -/
def destructureList (ch : Chapter) (fuel : Nat) (m : QuoteMode)
    (list : List Datum) (verifier : Datum → Except ParserError Unit) :
    Except ParserError ((List Expression × Option Expression) × QuoteMode) :=
  match fuel with
  | 0 => .error .outOfFuel
  | fuel + 1 =>
    match list with
    | [] => .ok (([], Option.none), m)
    | [x] => do
        verifier x
        let (e, m1) ← parseExpression ch fuel m x
        pure (([e], Option.none), m1)
    | _ =>
      let dotted : Bool :=
        match list.dropLast.getLast? with
        | some (.tok pd) => pd.type == .DOT
        | _ => false
      if dotted then
        match list.getLast? with
        | some cdrElement => do
            let listElements := list.dropLast.dropLast
            verifier cdrElement
            listElements.forM verifier
            let (es, m1) ← parseExprList ch fuel m listElements
            let (ce, m2) ← parseExpression ch fuel m1 cdrElement
            pure ((es, some ce), m2)
        | none => .error .runtimeType
      else do
        list.forM verifier
        let (es, m1) ← parseExprList ch fuel m list
        pure ((es, Option.none), m1)

/-- Sequential parsing of a datum list (the .map(this.parseExpression)
idiom), threading the quote mode left to right. -/
def parseExprList (ch : Chapter) (fuel : Nat) (m : QuoteMode)
    (ds : List Datum) : Except ParserError (List Expression × QuoteMode) :=
  match fuel with
  | 0 => .error .outOfFuel
  | fuel + 1 =>
    match ds with
    | [] => .ok ([], m)
    | d :: rest => do
        let (e, m1) ← parseExpression ch fuel m d
        let (es, m2) ← parseExprList ch fuel m1 rest
        pure (e :: es, m2)

/-- SchemeParser.parseVector: the second element of the affector group
is the parenthesized element group; its elements are parsed under the
mode the caller set. -/
def parseVector (ch : Chapter) (fuel : Nat) (m : QuoteMode)
    (elems : List Datum) : Except ParserError (Expression × QuoteMode) :=
  match fuel with
  | 0 => .error .outOfFuel
  | fuel + 1 =>
    match (unwrapElems elems).get? 1 with
    | some (.grp inner) => do
        let (convertedElements, m1) ← parseExprList ch fuel m (unwrapElems inner)
        pure (Expression.Vector (Datum.grp elems).location convertedElements, m1)
    | _ => .error .runtimeType

/-- SchemeParser.parseLambda. -/
def parseLambda (ch : Chapter) (fuel : Nat) (m : QuoteMode)
    (elems : List Datum) : Except ParserError (Expression × QuoteMode) :=
  match fuel with
  | 0 => .error .outOfFuel
  | fuel + 1 =>
    let loc := (Datum.grp elems).location
    if groupLength elems < 3 then
      .error (.ExpectedForm loc.start
        "(lambda (<identifier>* . <rest-identifier>?) <body>+) | (lambda <rest-identifer> <body>+)")
    else
      let elements := unwrapElems elems
      match elements.get? 1 with
      | none => .error .runtimeType
      | some formals => do
        let body := elements.drop 2
        let ((convertedFormals, convertedRest), m1) ←
          (match formals with
          | .tok ft =>
              if ft.type == .IDENTIFIER then
                .ok ((([] : List Expression),
                  some (Expression.Identifier (toLocation ft) ft.lexeme)), m)
              else .error (.ExpectedForm ft.pos "<rest-identifier>")
          | .grp fes =>
              destructureList ch fuel m (unwrapElems fes) identifierVerifier :
            Except ParserError ((List Expression × Option Expression) × QuoteMode))
        let (convertedBody, m2) ← parseExprList ch fuel m1 body
        match convertedBody with
        | [] => .error (.ExpectedForm loc.start "(lambda ... <body>+)")
        | [b] => pure (Expression.Lambda loc b convertedFormals convertedRest, m2)
        | b0 :: b1 :: brest =>
            let convertedAll := b0 :: b1 :: brest
            let newLocation := b0.location.merge (convertedAll.getLast!).location
            pure (Expression.Lambda loc
              (Expression.Sequence newLocation convertedAll)
              convertedFormals convertedRest, m2)

/-- SchemeParser.parseDefinition: value definition or function-shorthand
definition, detected on the second element being a group. -/
def parseDefinition (ch : Chapter) (fuel : Nat) (m : QuoteMode)
    (elems : List Datum) : Except ParserError (Expression × QuoteMode) :=
  match fuel with
  | 0 => .error .outOfFuel
  | fuel + 1 =>
    let loc := (Datum.grp elems).location
    if groupLength elems < 3 then
      .error (.ExpectedForm loc.start
        "(define <identifier> <expr>) | (define (<identifier> <formals>) <body>+)")
    else
      let elements := unwrapElems elems
      match elements.get? 1 with
      | none => .error .runtimeType
      | some identifier =>
        let expr := elements.drop 2
        match identifier with
        | .grp ies => do
            let identifierElements := unwrapElems ies
            match identifierElements.head? with
            | none => .error .runtimeType
            | some (.grp g) =>
                .error (.ExpectedForm (Datum.grp g).location.start "<identifier>")
            | some (.tok functionName) =>
              if functionName.type != .IDENTIFIER then
                .error (.ExpectedForm functionName.pos "<identifier>")
              else do
                let formals := identifierElements.drop 1
                let convertedIdentifier :=
                  Expression.Identifier (toLocation functionName)
                    functionName.lexeme
                let ((convertedFormals, convertedRest), m1) ←
                  destructureList ch fuel m formals identifierVerifier
                if expr.length < 1 then
                  .error (.ExpectedForm loc.start "(define ... <body>+)")
                else do
                  let (convertedBody, m2) ← parseExprList ch fuel m1 expr
                  match convertedBody with
                  | [] => .error .runtimeType
                  | [b] =>
                      pure (Expression.FunctionDefinition loc
                        convertedIdentifier b convertedFormals convertedRest, m2)
                  | b0 :: b1 :: brest =>
                      let convertedAll := b0 :: b1 :: brest
                      let newLocation :=
                        b0.location.merge (convertedAll.getLast!).location
                      pure (Expression.FunctionDefinition loc
                        convertedIdentifier
                        (Expression.Sequence newLocation convertedAll)
                        convertedFormals convertedRest, m2)
        | .tok idt =>
            if idt.type != .IDENTIFIER then
              .error (.ExpectedForm idt.pos "<identifier>")
            else
              let convertedIdentifier :=
                Expression.Identifier (toLocation idt) idt.lexeme
              if expr.length < 1 then
                .error (.ExpectedForm loc.start "(define ... <body>+)")
              else if expr.length > 1 then
                .error (.ExpectedForm loc.start "(define <identifier> <expr>)")
              else
                match expr.head? with
                | none => .error .runtimeType
                | some e0 => do
                    let (convertedExpr, m1) ← parseExpression ch fuel m e0
                    pure (Expression.Definition loc convertedIdentifier
                      convertedExpr, m1)

/-- SchemeParser.parseConditional: the optional alternate defaults to
the identifier undefined at the group location. -/
def parseConditional (ch : Chapter) (fuel : Nat) (m : QuoteMode)
    (elems : List Datum) : Except ParserError (Expression × QuoteMode) :=
  match fuel with
  | 0 => .error .outOfFuel
  | fuel + 1 =>
    let loc := (Datum.grp elems).location
    if groupLength elems < 3 || groupLength elems > 4 then
      .error (.ExpectedForm loc.start "(if <pred> <cons> <alt>?)")
    else
      let elements := unwrapElems elems
      match elements.get? 1, elements.get? 2 with
      | some test, some consequent => do
          let alternate := if groupLength elems > 3 then elements.get? 3
            else Option.none
          let (convertedTest, m1) ← parseExpression ch fuel m test
          let (convertedConsequent, m2) ← parseExpression ch fuel m1 consequent
          let (convertedAlternate, m3) ←
            (match alternate with
            | some a => parseExpression ch fuel m2 a
            | none => .ok (Expression.Identifier loc "undefined", m2) :
              Except ParserError (Expression × QuoteMode))
          pure (Expression.Conditional loc convertedTest convertedConsequent
            convertedAlternate, m3)
      | _, _ => .error .runtimeType

/-- SchemeParser.parseApplication. -/
def parseApplication (ch : Chapter) (fuel : Nat) (m : QuoteMode)
    (elems : List Datum) : Except ParserError (Expression × QuoteMode) :=
  match fuel with
  | 0 => .error .outOfFuel
  | fuel + 1 =>
    let loc := (Datum.grp elems).location
    if groupLength elems < 1 then
      .error (.ExpectedForm loc.start "(<func> <args>*)")
    else
      match (unwrapElems elems).head? with
      | none => .error .runtimeType
      | some operator => do
          let operands := (unwrapElems elems).drop 1
          let (convertedOperator, m1) ← parseExpression ch fuel m operator
          let (convertedOperands, m2) ← parseExprList ch fuel m1 operands
          pure (Expression.Application loc convertedOperator
            convertedOperands, m2)

/-- SchemeParser.parseLet. -/
def parseLet (ch : Chapter) (fuel : Nat) (m : QuoteMode)
    (elems : List Datum) : Except ParserError (Expression × QuoteMode) :=
  match fuel with
  | 0 => .error .outOfFuel
  | fuel + 1 =>
    let loc := (Datum.grp elems).location
    if groupLength elems < 3 then
      .error (.ExpectedForm loc.start "(let ((<identifier> <value>)*) <body>+)")
    else
      let elements := unwrapElems elems
      match elements.get? 1 with
      | none => .error .runtimeType
      | some (.tok bt) =>
          .error (.ExpectedForm bt.pos "((<identifier> <value>)*)")
      | some (.grp bes) => do
          let body := elements.drop 2
          let ((convertedIdentifiers, convertedValues), m1) ←
            parseLetBindings ch fuel m (unwrapElems bes)
          let (convertedBody, m2) ← parseExprList ch fuel m1 body
          match convertedBody with
          | [] => .error (.ExpectedForm loc.start "(let ... <body>+)")
          | [b] =>
              pure (Expression.LetExpr loc convertedIdentifiers
                convertedValues b, m2)
          | b0 :: b1 :: brest =>
              let convertedAll := b0 :: b1 :: brest
              let newLocation := b0.location.merge (convertedAll.getLast!).location
              pure (Expression.LetExpr loc convertedIdentifiers convertedValues
                (Expression.Sequence newLocation convertedAll), m2)

/-- Binding loop of parseLet: every binding is a two-element group of an
identifier token and a value expression. -/
def parseLetBindings (ch : Chapter) (fuel : Nat) (m : QuoteMode)
    (bindingElements : List Datum) :
    Except ParserError ((List Expression × List Expression) × QuoteMode) :=
  match fuel with
  | 0 => .error .outOfFuel
  | fuel + 1 =>
    match bindingElements with
    | [] => .ok (([], []), m)
    | .tok t :: _ => .error (.ExpectedForm t.pos "(<identifier> <value>)")
    | .grp bg :: rest =>
        if groupLength bg != 2 then
          .error (.ExpectedForm (Datum.grp bg).location.start
            "(<identifier> <value>)")
        else
          match unwrapElems bg with
          | [identifier, value] =>
            (match identifier with
            | .grp g =>
                .error (.ExpectedForm (Datum.grp g).location.start "<identifier>")
            | .tok it =>
                if it.type != .IDENTIFIER then
                  .error (.ExpectedForm it.pos "<identifier>")
                else do
                  let (convertedValue, m1) ← parseExpression ch fuel m value
                  let ((ids, vals), m2) ← parseLetBindings ch fuel m1 rest
                  pure ((Expression.Identifier (toLocation it) it.lexeme :: ids,
                    convertedValue :: vals), m2))
          | _ => .error .runtimeType

/-- SchemeParser.parseExtendedCond. -/
def parseExtendedCond (ch : Chapter) (fuel : Nat) (m : QuoteMode)
    (elems : List Datum) : Except ParserError (Expression × QuoteMode) :=
  match fuel with
  | 0 => .error .outOfFuel
  | fuel + 1 =>
    let loc := (Datum.grp elems).location
    if groupLength elems < 2 then
      .error (.ExpectedForm loc.start "(cond (<pred> <body>*)* (else <val>)?)")
    else
      let clausesAll := (unwrapElems elems).drop 1
      match clausesAll.getLast? with
      | none => .error .runtimeType
      | some lastClause => do
        let clauses := clausesAll.dropLast
        let ((convertedClauses, convertedConsequents), m1) ←
          parseCondClauses ch fuel m clauses
        match lastClause with
        | .tok t =>
            .error (.ExpectedForm t.pos "(<pred> <body>+) | (else <val>)")
        | .grp lg =>
          if groupLength lg < 2 then
            match (Datum.grp lg).firstToken? with
            | some ft =>
                .error (.ExpectedForm ft.pos "(<pred> <body>+) | (else <val>)")
            | none => .error .runtimeType
          else
            match unwrapElems lg with
            | [] => .error .runtimeType
            | test :: consequent =>
              let isElse : Bool :=
                match test with
                | .tok tt => tt.type == .ELSE
                | _ => false
              if isElse && consequent.length != 1 then
                .error (.ExpectedForm (Datum.grp lg).location.start "(else <val>)")
              else if consequent.length < 1 then
                .error (.ExpectedForm (Datum.grp lg).location.start
                  "(<pred> <body>+)")
              else do
                let (consequentExpressions, m2) ←
                  parseExprList ch fuel m1 consequent
                match consequentExpressions with
                | [] => .error .runtimeType
                | c0 :: crest =>
                  let consequentAll := c0 :: crest
                  let consequentLocation :=
                    c0.location.merge (consequentAll.getLast!).location
                  let lastConsequent :=
                    if consequent.length == 1 then c0
                    else Expression.Sequence consequentLocation consequentAll
                  if isElse then
                    pure (Expression.CondExpr loc convertedClauses
                      convertedConsequents (some lastConsequent), m2)
                  else do
                    let (lastTest, m3) ← parseExpression ch fuel m2 test
                    pure (Expression.CondExpr loc
                      (convertedClauses ++ [lastTest])
                      (convertedConsequents ++ [lastConsequent])
                      Option.none, m3)

/-- Clause loop of parseExtendedCond over the non-final clauses: a
clause with no consequent returns its own test, a clause with several
consequents merges them into a sequence, and else may not appear. -/
def parseCondClauses (ch : Chapter) (fuel : Nat) (m : QuoteMode)
    (clauses : List Datum) :
    Except ParserError ((List Expression × List Expression) × QuoteMode) :=
  match fuel with
  | 0 => .error .outOfFuel
  | fuel + 1 =>
    match clauses with
    | [] => .ok (([], []), m)
    | .tok t :: _ => .error (.ExpectedForm t.pos "(<pred> <body>*)")
    | .grp cg :: rest =>
        if groupLength cg < 1 then
          match (Datum.grp cg).firstToken? with
          | some ft => .error (.ExpectedForm ft.pos "(<pred> <body>*)")
          | none => .error .runtimeType
        else
          match unwrapElems cg with
          | [] => .error .runtimeType
          | test :: consequent =>
            let isElse : Bool :=
              match test with
              | .tok tt => tt.type == .ELSE
              | _ => false
            if isElse then
              match test with
              | .tok tt => .error (.ExpectedForm tt.pos "<predicate>")
              | _ => .error .runtimeType
            else do
              let (convertedTest, m1) ← parseExpression ch fuel m test
              let (consequentExpressions, m2) ←
                parseExprList ch fuel m1 consequent
              let consequentLocation :=
                if consequent.length < 1 then convertedTest.location
                else
                  ((consequentExpressions.head!).location.merge
                    (consequentExpressions.getLast!).location)
              let convertedConsequent :=
                if consequent.length < 1 then convertedTest
                else if consequent.length < 2 then consequentExpressions.head!
                else Expression.Sequence consequentLocation consequentExpressions
              let ((ts, cs), m3) ← parseCondClauses ch fuel m2 rest
              pure ((convertedTest :: ts, convertedConsequent :: cs), m3)

/-- SchemeParser.parseSet. -/
def parseSet (ch : Chapter) (fuel : Nat) (m : QuoteMode)
    (elems : List Datum) : Except ParserError (Expression × QuoteMode) :=
  match fuel with
  | 0 => .error .outOfFuel
  | fuel + 1 =>
    let loc := (Datum.grp elems).location
    if groupLength elems != 3 then
      .error (.ExpectedForm loc.start "(set! <identifier> <expr>)")
    else
      let elements := unwrapElems elems
      match elements.get? 1, elements.get? 2 with
      | some identifier, some expr =>
        (match identifier with
        | .grp g =>
            .error (.ExpectedForm (Datum.grp g).location.start "<identifier>")
        | .tok it =>
            if it.type != .IDENTIFIER then
              .error (.ExpectedForm it.pos "<identifier>")
            else do
              let convertedIdentifier :=
                Expression.Identifier (toLocation it) it.lexeme
              let (convertedExpr, m1) ← parseExpression ch fuel m expr
              pure (Expression.Reassignment loc convertedIdentifier
                convertedExpr, m1))
      | _, _ => .error .runtimeType

/-- SchemeParser.parseBegin. -/
def parseBegin (ch : Chapter) (fuel : Nat) (m : QuoteMode)
    (elems : List Datum) : Except ParserError (Expression × QuoteMode) :=
  match fuel with
  | 0 => .error .outOfFuel
  | fuel + 1 =>
    let loc := (Datum.grp elems).location
    if groupLength elems < 2 then
      .error (.ExpectedForm loc.start "(begin <body>+)")
    else do
      let sequenceElements := (unwrapElems elems).drop 1
      let (convertedExpressions, m1) ←
        parseExprList ch fuel m sequenceElements
      pure (Expression.BeginExpr loc convertedExpressions, m1)

/-- SchemeParser.parseDelay. -/
def parseDelay (ch : Chapter) (fuel : Nat) (m : QuoteMode)
    (elems : List Datum) : Except ParserError (Expression × QuoteMode) :=
  match fuel with
  | 0 => .error .outOfFuel
  | fuel + 1 =>
    let loc := (Datum.grp elems).location
    if groupLength elems != 2 then
      .error (.ExpectedForm loc.start "(delay <expr>)")
    else
      match (unwrapElems elems).get? 1 with
      | none => .error .runtimeType
      | some expr => do
          let (convertedExpr, m1) ← parseExpression ch fuel m expr
          pure (Expression.DelayExpr loc convertedExpr, m1)

/-- SchemeParser.parseImport, shared by the plain and the JS variants. -/
def parseImport (ch : Chapter) (fuel : Nat) (m : QuoteMode)
    (elems : List Datum) (is_js : Bool) :
    Except ParserError (Expression × QuoteMode) :=
  match fuel with
  | 0 => .error .outOfFuel
  | fuel + 1 =>
    let loc := (Datum.grp elems).location
    if groupLength elems != 3 then
      match (Datum.grp elems).firstToken? with
      | some ft =>
          .error (.ExpectedForm ft.pos
            (if is_js then "(js-import \"<source>\" (<identifier>*))"
              else "(import \"<source>\" (<identifier>*))"))
      | none => .error .runtimeType
    else
      let elements := unwrapElems elems
      match elements.get? 1, elements.get? 2 with
      | some source, some identifiers =>
        (match source with
        | .grp g =>
            .error (.ExpectedForm (Datum.grp g).location.start "\"<source>\"")
        | .tok st =>
          if st.type != .STRING then
            .error (.ExpectedForm st.pos "\"<source>\"")
          else
            match identifiers with
            | .tok it => .error (.ExpectedForm it.pos "(<identifier>*)")
            | .grp ig => do
                let convertedIdentifiers ←
                  convertImportIds (unwrapElems ig)
                let convertedSource :=
                  Expression.StringLiteral (toLocation st) st.literal
                pure (Expression.ImportExpr loc convertedSource
                  convertedIdentifiers is_js, m))
      | _, _ => .error .runtimeType

/-- SchemeParser.parseExport, shared by the plain and the JS variants. -/
def parseExport (ch : Chapter) (fuel : Nat) (m : QuoteMode)
    (elems : List Datum) (is_js : Bool) :
    Except ParserError (Expression × QuoteMode) :=
  match fuel with
  | 0 => .error .outOfFuel
  | fuel + 1 =>
    let loc := (Datum.grp elems).location
    if groupLength elems != 2 then
      match (Datum.grp elems).firstToken? with
      | some ft =>
          .error (.ExpectedForm ft.pos
            (if is_js then "(js-export (<definition>))"
              else "(export (<definition>))"))
      | none => .error .runtimeType
    else
      match (unwrapElems elems).get? 1 with
      | none => .error .runtimeType
      | some definition =>
        match definition with
        | .tok dt => .error (.ExpectedForm dt.pos "(<definition>)")
        | .grp dg => do
            let (convertedDefinition, m1) ←
              parseExpression ch fuel m (.grp dg)
            if !convertedDefinition.isDefinition then
              .error (.ExpectedForm (Datum.grp dg).location.start
                "(<definition>)")
            else
              pure (Expression.ExportExpr loc convertedDefinition is_js, m1)

end

/-!
The grouping stage of SchemeParser: method grouping() walks the token
sequence and builds datums, attaching affector tokens to their single
target datum and discarding datum-comment regions.
-/

/-- Affector token kinds that the grouper attaches to the next datum. -/
def isAffectorType (t : TokenType) : Bool :=
  t == .APOSTROPHE || t == .BACKTICK || t == .COMMA || t == .COMMA_AT ||
    t == .HASH_VECTOR

/-- Modelled from the spec: the Group.build smart constructor of the
absent types/tokens/group file, enforcing the Group invariants of the
data model: a Group is never empty; a parenthesized Group carries a
matching open/close delimiter pair at its ends; an unparenthesized
Group is an affector token with its single target datum; and a
singleton group collapses to its inner element rather than wrapping it.
The empty case is marked runtimeType: grouping() never builds from an
empty element list. -/
def GroupBuild (elements : List Datum) : Except ParserError Datum :=
  match elements with
  | [] => .error .runtimeType
  | [d] => .ok d
  | es =>
      match es.head?, es.getLast? with
      | some (.tok l), some (.tok r) =>
          if matchingParentheses l r then .ok (.grp es)
          else
            match es with
            | [.tok a, t] =>
                if isAffectorType a.type then .ok (.grp [.tok a, t])
                else .error (.ExpectedForm a.pos "group")
            | _ => .error (.ExpectedForm l.pos "group")
      | _, _ =>
          match es with
          | [.tok a, t] =>
              if isAffectorType a.type then .ok (.grp [.tok a, t])
              else .error (.ExpectedForm a.pos "group")
          | _ => .error (.ExpectedForm (Datum.grp es).startPos "group")

/-- SchemeParser.affect: group an affector token with its target. -/
def affect (affector : Token) (target : Datum) : Except ParserError Datum :=
  GroupBuild [.tok affector, target]

mutual

/-- Body of the do-while loop of SchemeParser.grouping: consume one
token, act on its kind, and iterate while still inside an open
delimiter context. -/
def groupingLoop (fuel : Nat) (tokens : List Token) (cur : Nat)
    (inList : Bool) (acc : List Datum) :
    Except ParserError (List Datum × Nat) :=
  match fuel with
  | 0 => .error .outOfFuel
  | fuel + 1 =>
    match tokens.get? cur with
    | none =>
        -- past the end of the token array the source advance() returns
        -- previous() forever; behind the EOF sentinel this is unreachable
        .error .outOfFuel
    | some c => do
      let cur1 := cur + 1
      let (acc2, inList2, cur2) ←
        (match c.type with
        | .LEFT_PAREN | .LEFT_BRACKET => do
            let (inner?, cur2) ← grouping fuel tokens cur1 (some c)
            match inner? with
            | some innerGroup => pure (acc ++ [innerGroup], inList, cur2)
            | none => .error .runtimeType
        | .RIGHT_PAREN | .RIGHT_BRACKET =>
            if !inList then .error (.UnexpectedForm c.pos)
            else pure (acc ++ [.tok c], false, cur1)
        | .APOSTROPHE | .BACKTICK | .COMMA | .COMMA_AT | .HASH_VECTOR => do
            let (nextGrouping, cur2) ← groupNext fuel tokens cur1
            let affected ← affect c nextGrouping
            pure (acc ++ [affected], inList, cur2)
        | .QUOTE | .QUASIQUOTE | .UNQUOTE | .UNQUOTE_SPLICING
        | .IDENTIFIER | .NUMBER | .BOOLEAN | .STRING | .DOT
        | .DEFINE | .IF | .ELSE | .COND | .LAMBDA | .LET
        | .SET | .BEGIN | .DELAY
        | .IMPORT | .EXPORT | .JS_IMPORT | .JS_EXPORT =>
            pure (acc ++ [.tok c], inList, cur1)
        | .HASH_SEMICOLON => do
            let (_, cur2) ← groupNext fuel tokens cur1
            pure (acc, inList, cur2)
        | .EOF => .error (.UnexpectedEOF c.pos)
        | _ => .error (.UnexpectedForm c.pos) :
          Except ParserError (List Datum × Bool × Nat))
      if inList2 then groupingLoop fuel tokens cur2 inList2 acc2
      else .ok (acc2, cur2)

/-- SchemeParser.grouping: run the loop from the optional opening
delimiter, then build the group; an empty element list (a fully
discarded datum-comment region) yields no datum. -/
def grouping (fuel : Nat) (tokens : List Token) (cur : Nat)
    (openparen : Option Token) : Except ParserError (Option Datum × Nat) :=
  match fuel with
  | 0 => .error .outOfFuel
  | fuel + 1 => do
    let init : List Datum :=
      match openparen with
      | some t => [.tok t]
      | none => []
    let (elements, cur2) ← groupingLoop fuel tokens cur openparen.isSome init
    if elements.isEmpty then .ok (Option.none, cur2)
    else do
      let d ← GroupBuild elements
      .ok (some d, cur2)

/-- The do-while nextGrouping loop: keep grouping until a non-empty
datum appears (skipping datum comments). -/
def groupNext (fuel : Nat) (tokens : List Token) (cur : Nat) :
    Except ParserError (Datum × Nat) :=
  match fuel with
  | 0 => .error .outOfFuel
  | fuel + 1 => do
    let (d?, cur2) ← grouping fuel tokens cur Option.none
    match d? with
    | some d => .ok (d, cur2)
    | none => groupNext fuel tokens cur2

end

/-- SchemeParser.parse: collect all top-level elements, stopping at the
EOF sentinel, grouping each and converting it to an expression. -/
def parseTopLevel (ch : Chapter) (fuel : Nat) (tokens : List Token)
    (cur : Nat) (m : QuoteMode) (acc : List Expression) :
    Except ParserError (List Expression) :=
  match fuel with
  | 0 => .error .outOfFuel
  | fuel + 1 =>
    match tokens.get? cur with
    | none => .ok acc
    | some t =>
      if t.type == .EOF then .ok acc
      else do
        let (d?, cur2) ← grouping fuel tokens cur Option.none
        match d? with
        | none => parseTopLevel ch fuel tokens cur2 m acc
        | some d => do
            let (e, m1) ← parseExpression ch fuel m d
            parseTopLevel ch fuel tokens cur2 m1 (acc ++ [e])

/-- A full run of SchemeParser over a token sequence with the given
chapter ceiling (the constructor stores the ceiling; parse() starts at
index 0 in mode NONE). -/
def SchemeParserRun (ch : Chapter) (fuel : Nat) (tokens : List Token) :
    Except ParserError (List Expression) :=
  parseTopLevel ch fuel tokens 0 .NONE []

/-- The public entry point schemeParse of src/parser/index.ts, taken at
token level (the scanner generation matching this parser is absent from
the sources).  The function receives an optional chapter argument but
constructs the semantic parser from the scanned tokens WITHOUT passing
the chapter along, so the parser runs at its constructor default
ceiling, Infinity (Chapter none). -/
def schemeParse (fuel : Nat) (tokens : List Token) (chapter : Option Nat) :
    Except ParserError (List Expression) :=
  SchemeParserRun Option.none fuel tokens

/-!
The tokenizer fragment deciding number-versus-symbol lexemes: methods
symbolNumberToken and checkKeyword of the Tokenizer, with the character
classes and the KEYWORDS table.  Source text is a character list; the
null character stands for the end-of-input sentinel of peek().
-/
namespace Tokenizer

/-- Tokenizer.isDigit. -/
def isDigit (c : Char) : Bool :=
  48 ≤ c.toNat && c.toNat ≤ 57

/-- Tokenizer.isSpecialSyntax. -/
def isSpecialSyntax (c : Char) : Bool :=
  c == '(' || c == ')' || c == '[' || c == ']' || c == ';' || c == '|'

/-- Tokenizer.isWhitespace; the null character is the end sentinel. -/
def isWhitespace (c : Char) : Bool :=
  c == ' ' || c == Char.ofNat 0 || c == '\n' || c == '\r' || c == '\t'

/-- Tokenizer.isValidSymbol. -/
def isValidSymbol (c : Char) : Bool :=
  !isWhitespace c && !isSpecialSyntax c

/-- Tokenizer.peek at an arbitrary index: the character there, or the
null sentinel at or past the end. -/
def peekAt (src : List Char) (i : Nat) : Char :=
  match src.get? i with
  | some c => c
  | none => Char.ofNat 0

/-- The fixed KEYWORDS table of the tokenizer. -/
def KEYWORDS (s : String) : Option TokenType :=
  if s = "." then some .DOT
  else if s = "..." then some .TRIPLE_DOT
  else if s = "quote" then some .QUOTE
  else if s = "quasiquote" then some .QUASIQUOTE
  else if s = "unquote" then some .UNQUOTE
  else if s = "unquote-splicing" then some .UNQUOTE_SPLICING
  else Option.none

/-- Tokenizer.checkKeyword: resolve a lexeme through the keyword table,
defaulting to a generic symbol; pipe-delimited lexemes are trimmed
first. -/
def checkKeyword (text : String) : TokenType :=
  let text :=
    if text.data.head? == some '|' then ⟨(text.data.drop 1).dropLast⟩
    else text
  match KEYWORDS text with
  | some k => k
  | none => .SYMBOL

/-- The scanning loop of Tokenizer.symbolNumberToken: advance while the
next character is symbol-valid, updating number-validity and the
dot flag exactly as the source does; returns the stop position and the
final flags.  The loop advances one position per step and the null
sentinel past the end is never symbol-valid, so any fuel above the
remaining source length reproduces the source loop exactly. -/
def symbolNumberScan (fuel : Nat) (src : List Char) (cur : Nat)
    (validNumber hasDot : Bool) : Nat × Bool × Bool :=
  match fuel with
  | 0 => (cur, validNumber, hasDot)
  | fuel + 1 =>
    if isValidSymbol (peekAt src cur) then
      let c := peekAt src cur
      let next :=
        if !(isDigit c) then
          if c == '.' then
            if hasDot then (false, hasDot)
            else if isDigit (peekAt src (cur + 1)) ||
                isWhitespace (peekAt src (cur + 1)) then (validNumber, true)
            else (false, hasDot)
          else (false, hasDot)
        else (validNumber, hasDot)
      symbolNumberScan fuel src (cur + 1) next.1 next.2
    else (cur, validNumber, hasDot)

/-- Tokenizer.symbolNumberToken: scan a provisional number whose first
character (already consumed, at index start = cur - 1) was a digit, a
minus or a dot; the finished lexeme is re-checked, and the three exact
lexemes dot, minus and minus-dot are never numbers.  The scan fuel
src.length + 1 always exceeds the remaining source, so the loop stops
only at its own guard. -/
def symbolNumberToken (src : List Char) (start cur : Nat) :
    TokenType × Nat :=
  let first := if cur = 0 then Char.ofNat 0 else peekAt src (cur - 1)
  let hasDot := first == '.'
  let scanned := symbolNumberScan (src.length + 1) src cur true hasDot
  let cur2 := scanned.1
  let validNumber0 := scanned.2.1
  let lexeme : String := ⟨(src.drop start).take (cur2 - start)⟩
  let validNumber :=
    if lexeme = "." || lexeme = "-" || lexeme = "-." then false
    else validNumber0
  if validNumber then (.NUMBER, cur2) else (checkKeyword lexeme, cur2)

end Tokenizer

/-!
Concrete sample tokens and token sequences used by the concrete runs
below.  Tokens are built through the part_004 Token constructor so that
positions follow its endPos formula.
-/

/-- A sample token on line 1 with no literal payload. -/
def mkTok (ty : TokenType) (lex : String) (col : Nat) : Token :=
  Token.make ty lex .none 1 col

/-- A sample number token carrying its lexeme as literal. -/
def numTok (lex : String) (col : Nat) : Token :=
  Token.make .NUMBER lex (.num lex) 1 col

/-- Token sequence of the source (let ((x 1)) x). -/
def letTokens : List Token :=
  [mkTok .LEFT_PAREN "(" 1, mkTok .LET "let" 2, mkTok .LEFT_PAREN "(" 6,
    mkTok .LEFT_PAREN "(" 7, mkTok .IDENTIFIER "x" 8, numTok "1" 10,
    mkTok .RIGHT_PAREN ")" 11, mkTok .RIGHT_PAREN ")" 12,
    mkTok .IDENTIFIER "x" 14, mkTok .RIGHT_PAREN ")" 15, mkTok .EOF "" 16]

/-- Token sequence of the source quote-x: an apostrophe followed by the
identifier x. -/
def quoteXTokens : List Token :=
  [mkTok .APOSTROPHE "\x27" 1, mkTok .IDENTIFIER "x" 2, mkTok .EOF "" 3]

/-- A sample apostrophe token at line 1 column 1. -/
def aposTok : Token := mkTok .APOSTROPHE "\x27" 1

/-- A sample identifier token x at line 1 column 2. -/
def identXTok : Token := mkTok .IDENTIFIER "x" 2

/-- A sample comma-at token at line 1 column 1. -/
def commaAtTok : Token := mkTok .COMMA_AT ",@" 1

/-- A sample hash-vector marker at line 1 column 1. -/
def hashVecTok : Token := mkTok .HASH_VECTOR "#" 1

/-- Element list of the parenthesized group (x) starting at column 2. -/
def innerXGroup : List Datum :=
  [.tok (mkTok .LEFT_PAREN "(" 2), .tok (mkTok .IDENTIFIER "x" 3),
    .tok (mkTok .RIGHT_PAREN ")" 4)]

/-- The special-form keyword token kinds of the implicit claim about
keyword datums: the chapter keywords and the quote-family keyword word
forms, none of which parseToken recognizes as literal kinds. -/
def keywordTokenTypes : List TokenType :=
  [.IF, .LET, .COND, .ELSE, .DEFINE, .LAMBDA, .SET, .BEGIN, .DELAY,
    .IMPORT, .EXPORT, .QUOTE, .QUASIQUOTE, .UNQUOTE, .UNQUOTE_SPLICING]

/-- The Group invariants exactly as the claim states them: a group is
never empty, it is parenthesized precisely when its first and last
elements are a matching delimiter pair, and an unparenthesized group
consists of exactly two elements, an affector token and its single
target datum. -/
def GroupClaimInvariant (g : List Datum) : Prop :=
  g ≠ [] ∧
  (isParenthesizedElems g = true ↔
    ∃ l r, g.head? = some (.tok l) ∧ g.getLast? = some (.tok r) ∧
      matchingParentheses l r = true) ∧
  (isParenthesizedElems g = false →
    ∃ a t, g = [.tok a, t] ∧ isAffectorType a.type = true)

/-!
Theorems.
-/

/-- C1: for every identifier lexeme x, parsing the single datum x while
the quote mode is NONE yields an Identifier node carrying that lexeme,
and parsing the affector group of an apostrophe applied to x (with the
chapter ceiling at least the quoting chapter) yields a Symbol node
carrying the same lexeme. -/
theorem quote_mode_law (f : Nat) (ch : Chapter) (t apos : Token)
    (ht : t.type = .IDENTIFIER) (ha : apos.type = .APOSTROPHE)
    (hch : Chapter.lt ch QUOTING_CHAPTER = false) :
    parseExpression ch (f + 1) .NONE (.tok t) =
      .ok (.Identifier (toLocation t) t.lexeme, .NONE) ∧
    parseExpression ch (f + 4) .NONE (.grp [.tok apos, .tok t]) =
      .ok (.Symbol (toLocation t) t.lexeme, .NONE) := by
  have hch2 : Chapter.lt ch 2 = false := hch
  constructor
  · simp [parseExpression, parseToken, ht, Except.map]
  · simp [parseExpression, parseGroup, parseAffectorGroup, parseToken,
      isSingleTokenElems, isParenthesizedElems, unwrapElems, validateChapter,
      ht, ha, hch2, QUOTING_CHAPTER, Except.map, Except.bind, Bind.bind,
      pure, Except.pure]

/-- Closed witness for C1 at the concrete identifier x and a concrete
apostrophe token, at ceiling 2. -/
theorem quote_mode_law_witness :
    (identXTok.type = .IDENTIFIER ∧ aposTok.type = .APOSTROPHE ∧
      Chapter.lt (some 2) QUOTING_CHAPTER = false) ∧
    (parseExpression (some 2) (0 + 1) .NONE (.tok identXTok) =
      .ok (.Identifier (toLocation identXTok) identXTok.lexeme, .NONE) ∧
    parseExpression (some 2) (0 + 4) .NONE (.grp [.tok aposTok, .tok identXTok]) =
      .ok (.Symbol (toLocation identXTok) identXTok.lexeme, .NONE)) :=
  ⟨⟨rfl, rfl, rfl⟩, quote_mode_law 0 (some 2) identXTok aposTok rfl rfl rfl⟩

/-- C3: with chapter ceiling 1 the token sequence of
(let ((x 1)) x) parses into a Let node, the token sequence of quote-x
fails with DisallowedToken at the apostrophe, and in general a
construct whose minimum chapter exceeds the ceiling makes
validateChapter raise DisallowedToken. -/
theorem chapter_gating :
    (∃ loc ids vals body,
      SchemeParserRun (some 1) 30 letTokens =
        .ok [.LetExpr loc ids vals body]) ∧
    SchemeParserRun (some 1) 30 quoteXTokens =
      .error (.DisallowedToken ⟨1, 1⟩) ∧
    ∀ (ch : Chapter) (t : Token) (k : Nat), Chapter.lt ch k = true →
      validateChapter ch t k = .error (.DisallowedToken t.pos) := by
  refine ⟨⟨_, _, _, _, rfl⟩, rfl, ?_⟩
  intro ch t k h
  simp [validateChapter, h]

/-- Closed witness for C3 at a concrete ceiling, token and chapter. -/
theorem chapter_gating_witness :
    Chapter.lt (some 1) QUOTING_CHAPTER = true ∧
    validateChapter (some 1) aposTok QUOTING_CHAPTER =
      .error (.DisallowedToken aposTok.pos) :=
  ⟨rfl, chapter_gating.2.2 (some 1) aposTok QUOTING_CHAPTER rfl⟩

/-- C9: the public entry point schemeParse never forwards its chapter
argument (the parser is constructed at the default unlimited ceiling),
so the result is independent of the argument and the quote-x source is
accepted at a requested ceiling of 1, while a SchemeParser actually
running at ceiling 1 rejects the same tokens with DisallowedToken. -/
theorem schemeParse_ignores_chapter :
    (∀ (fuel : Nat) (tokens : List Token) (c1 c2 : Option Nat),
      schemeParse fuel tokens c1 = schemeParse fuel tokens c2) ∧
    schemeParse 30 quoteXTokens (some 1) =
      .ok [.Symbol ⟨⟨1, 2⟩, ⟨1, 2⟩⟩ "x"] ∧
    SchemeParserRun (some 1) 30 quoteXTokens =
      .error (.DisallowedToken ⟨1, 1⟩) :=
  ⟨fun _ _ _ _ => rfl, rfl, rfl⟩

/-- C10: a special-form keyword token parsed as a datum under QUOTE or
QUASIQUOTE yields a Symbol carrying its lexeme without error, while the
same bare keyword datum under NONE raises UnexpectedForm. -/
theorem keyword_datum_quote_mode (f : Nat) (ch : Chapter) (t : Token)
    (hmem : t.type ∈ keywordTokenTypes) :
    parseExpression ch (f + 1) .QUOTE (.tok t) =
      .ok (.Symbol (toLocation t) t.lexeme, .QUOTE) ∧
    parseExpression ch (f + 1) .QUASIQUOTE (.tok t) =
      .ok (.Symbol (toLocation t) t.lexeme, .QUASIQUOTE) ∧
    parseExpression ch (f + 1) .NONE (.tok t) =
      .error (.UnexpectedForm t.pos) := by
  simp only [keywordTokenTypes, List.mem_cons, List.not_mem_nil,
    or_false] at hmem
  rcases hmem with h|h|h|h|h|h|h|h|h|h|h|h|h|h|h <;>
    simp [parseExpression, parseToken, h, Except.map]

/-- Closed witness for C10 at the concrete keyword token let. -/
theorem keyword_datum_quote_mode_witness :
    (mkTok .LET "let" 1).type ∈ keywordTokenTypes ∧
    parseExpression Option.none (0 + 1) .QUOTE (.tok (mkTok .LET "let" 1)) =
      .ok (.Symbol (toLocation (mkTok .LET "let" 1))
        (mkTok .LET "let" 1).lexeme, .QUOTE) :=
  ⟨by decide,
    (keyword_datum_quote_mode 0 Option.none (mkTok .LET "let" 1)
      (by decide)).1⟩

/-- C4 counterexample: an unquote-splicing affector applied outside any
quoting raises UnexpectedForm, not the unsupported-token error the
claim states. -/
theorem unquote_splicing_counterexample :
    parseAffectorGroup Option.none 5 .NONE [.tok commaAtTok, .tok identXTok] =
      .error (.UnexpectedForm ⟨1, 1⟩) ∧
    ∀ p : Position,
      parseAffectorGroup Option.none 5 .NONE
          [.tok commaAtTok, .tok identXTok] ≠
        .error (.UnsupportedToken p) := by
  refine ⟨rfl, ?_⟩
  intro p h
  rw [show parseAffectorGroup Option.none 5 .NONE
      [.tok commaAtTok, .tok identXTok] =
      .error (.UnexpectedForm ⟨1, 1⟩) from rfl] at h
  simp at h

/-- C4 amended: an unquote-splicing affector (comma-at or the keyword
form) applied to a target behaves like unquote only in part: outside any
quoting it fails with an UnexpectedForm error (not UnsupportedToken);
inside QUOTE it yields the literal two-element list of the
unquote-splicing symbol and the parsed target; at the outer level of
QUASIQUOTE it fails with an UnsupportedToken error. -/
theorem unquote_splicing_modes (f : Nat) (ch : Chapter) (ca : Token)
    (target : Datum)
    (hca : ca.type = .COMMA_AT ∨ ca.type = .UNQUOTE_SPLICING)
    (hch : Chapter.lt ch QUOTING_CHAPTER = false) :
    parseAffectorGroup ch (f + 1) .NONE [.tok ca, target] =
      .error (.UnexpectedForm ca.pos) ∧
    parseAffectorGroup ch (f + 1) .QUOTE [.tok ca, target] =
      (parseExpression ch f .QUOTE target).map (fun em =>
        (Expression.ListExpr ((toLocation ca).merge em.1.location)
          [Expression.Symbol (toLocation ca) "unquote-splicing", em.1]
          Option.none, em.2)) ∧
    parseAffectorGroup ch (f + 1) .QUASIQUOTE [.tok ca, target] =
      .error (.UnsupportedToken ca.pos) := by
  have hch2 : Chapter.lt ch 2 = false := hch
  refine ⟨?_, ?_, ?_⟩
  · rcases hca with h | h <;>
      simp [parseAffectorGroup, unwrapElems, isParenthesizedElems, h,
        validateChapter, hch2, QUOTING_CHAPTER, Except.bind, Bind.bind,
        pure, Except.pure]
  · rcases hca with h | h <;>
      (cases hpe : parseExpression ch f .QUOTE target with
      | ok em =>
          obtain ⟨e1, m1⟩ := em
          simp [parseAffectorGroup, unwrapElems, isParenthesizedElems, h,
            validateChapter, hch2, QUOTING_CHAPTER, hpe, Except.bind,
            Bind.bind, pure, Except.pure, Except.map, Expression.location,
            Location.merge, toLocation]
      | error e =>
          simp [parseAffectorGroup, unwrapElems, isParenthesizedElems, h,
            validateChapter, hch2, QUOTING_CHAPTER, hpe, Except.bind,
            Bind.bind, pure, Except.pure, Except.map])
  · rcases hca with h | h <;>
      simp [parseAffectorGroup, unwrapElems, isParenthesizedElems, h,
        validateChapter, hch2, QUOTING_CHAPTER, Except.bind, Bind.bind,
        pure, Except.pure]

/-- Closed witness for C4 amended at a concrete comma-at group. -/
theorem unquote_splicing_modes_witness :
    ((commaAtTok.type = .COMMA_AT ∨ commaAtTok.type = .UNQUOTE_SPLICING) ∧
      Chapter.lt Option.none QUOTING_CHAPTER = false) ∧
    parseAffectorGroup Option.none (4 + 1) .QUASIQUOTE
        [.tok commaAtTok, .tok identXTok] =
      .error (.UnsupportedToken commaAtTok.pos) :=
  ⟨⟨Or.inl rfl, rfl⟩,
    (unquote_splicing_modes 4 Option.none commaAtTok (.tok identXTok)
      (Or.inl rfl) rfl).2.2⟩

/-- C5: for every hash-vector affector group and every ambient quote
mode, the elements of the inner parenthesized group are parsed under the
forced QUOTE mode, the result is a Vector node of those parsed elements
at the whole group location, and the quote mode returned to the caller
is the ambient mode again. -/
theorem vector_quote_forcing (f : Nat) (ch : Chapter) (m : QuoteMode)
    (hv : Token) (inner : List Datum) (es : List Expression)
    (mEnd : QuoteMode) (hhv : hv.type = .HASH_VECTOR)
    (hch : Chapter.lt ch VECTOR_CHAPTER = false)
    (hinner : parseExprList ch f .QUOTE (unwrapElems inner) = .ok (es, mEnd)) :
    parseAffectorGroup ch (f + 2) m [.tok hv, .grp inner] =
      .ok (.Vector (Datum.grp [.tok hv, .grp inner]).location es, m) := by
  have hch2 : Chapter.lt ch 3 = false := hch
  have hu : unwrapElems [Datum.tok hv, Datum.grp inner] =
      [Datum.tok hv, Datum.grp inner] := by
    simp [unwrapElems, isParenthesizedElems, hhv]
  simp [parseAffectorGroup, parseVector, hu, hhv, validateChapter, hch2,
    VECTOR_CHAPTER, hinner, Except.bind, Bind.bind, pure, Except.pure]

/-- Closed witness for C5 at a concrete vector group under ambient
QUASIQUOTE mode. -/
theorem vector_quote_forcing_witness :
    (hashVecTok.type = .HASH_VECTOR ∧
      Chapter.lt Option.none VECTOR_CHAPTER = false ∧
      parseExprList Option.none 2 .QUOTE (unwrapElems innerXGroup) =
        .ok ([.Symbol ⟨⟨1, 3⟩, ⟨1, 3⟩⟩ "x"], .QUOTE)) ∧
    parseAffectorGroup Option.none (2 + 2) .QUASIQUOTE
        [.tok hashVecTok, .grp innerXGroup] =
      .ok (.Vector (Datum.grp [.tok hashVecTok, .grp innerXGroup]).location
        [.Symbol ⟨⟨1, 3⟩, ⟨1, 3⟩⟩ "x"], .QUASIQUOTE) :=
  ⟨⟨rfl, rfl, rfl⟩,
    vector_quote_forcing 2 Option.none .QUASIQUOTE hashVecTok innerXGroup
      [.Symbol ⟨⟨1, 3⟩, ⟨1, 3⟩⟩ "x"] .QUOTE rfl rfl rfl⟩

/-- C6 counterexample: the expression parsed from the quoted datum
apostrophe-x carries only the span of x, not the union of the raw token
spans (which would start at the apostrophe), and the Token constructor
records an end position for a multi-line lexeme that differs from the
exact position of its last character. -/
theorem span_law_counterexample :
    (toLocation aposTok).merge (toLocation identXTok) = ⟨⟨1, 1⟩, ⟨1, 2⟩⟩ ∧
    parseExpression Option.none 5 .NONE
        (.grp [.tok aposTok, .tok identXTok]) =
      .ok (.Symbol ⟨⟨1, 2⟩, ⟨1, 2⟩⟩ "x", .NONE) ∧
    (⟨⟨1, 2⟩, ⟨1, 2⟩⟩ : Location) ≠ ⟨⟨1, 1⟩, ⟨1, 2⟩⟩ ∧
    (Token.make .STRING "ab\ncd" (.str "ab\ncd") 1 1).endPos ≠
      lexemeEndPos "ab\ncd" 1 1 :=
  ⟨rfl, rfl, by decide, by decide⟩

/-- The position walk of lexemeEndPos over a lexeme without line breaks
advances the column by the number of characters. -/
theorem foldl_pos_no_newline (cs : List Char) (line c0 : Nat)
    (h : ∀ c ∈ cs, c ≠ '\n') :
    cs.foldl
      (fun p c => if c = '\n' then ⟨p.line + 1, 0⟩ else ⟨p.line, p.col + 1⟩)
      (⟨line, c0⟩ : Position) = ⟨line, c0 + cs.length⟩ := by
  induction cs generalizing c0 with
  | nil => simp
  | cons a cs ih =>
      have ha : ¬(a = '\n') := h a (by simp)
      rw [List.foldl_cons, if_neg ha,
        ih (c0 + 1) (fun c hm => h c (by simp [hm]))]
      simp only [List.length_cons, Position.mk.injEq, true_and]
      omega

/-- C6 amended: node spans are merged from constituent spans in the
re-quoting, list and group cases — the re-quoting result merges the
apostrophe token span with the inner node span, a quoted group yields
its list node at the group location in all three length cases, and a
group location is the merge of its first and last constituent token
spans — but the expression produced for an outer quoted datum carries
only the span of the target (the apostrophe token span is excluded),
and a token end position is recorded on the start line at column
col + length - 1, which is exact precisely for single-line lexemes. -/
theorem span_law_amended :
    (∀ (f : Nat) (ch : Chapter) (m : QuoteMode) (apos : Token)
      (target : Datum) (e1 : Expression) (m1 : QuoteMode),
      (apos.type = .APOSTROPHE ∨ apos.type = .QUOTE) →
      (m = .QUOTE ∨ m = .QUASIQUOTE) →
      Chapter.lt ch QUOTING_CHAPTER = false →
      parseExpression ch f m target = .ok (e1, m1) →
      parseAffectorGroup ch (f + 1) m [.tok apos, target] =
        .ok (.ListExpr ((toLocation apos).merge e1.location)
          [.Symbol (toLocation apos) "quote", e1] Option.none, m1)) ∧
    (∀ (f : Nat) (ch : Chapter) (m : QuoteMode) (elems : List Datum),
      (groupLength elems = 0 →
        parseQuotedGroup ch (f + 1) m elems =
          .ok (.Nil (Datum.grp elems).location, m)) ∧
      (∀ d e1 m1, unwrapElems elems = [d] →
        parseExpression ch f m d = .ok (e1, m1) →
        parseQuotedGroup ch (f + 1) m elems =
          .ok (.ListExpr (Datum.grp elems).location [e1] Option.none, m1)) ∧
      (∀ es tl m1, 2 ≤ groupLength elems →
        destructureList ch f m (unwrapElems elems) defaultVerifier =
          .ok ((es, tl), m1) →
        parseQuotedGroup ch (f + 1) m elems =
          .ok (.ListExpr (Datum.grp elems).location es tl, m1))) ∧
    (∀ (elems : List Datum) (ft lt : Token),
      (Datum.grp elems).firstToken? = some ft →
      (Datum.grp elems).lastToken? = some lt →
      (Datum.grp elems).location = (toLocation ft).merge (toLocation lt)) ∧
    (∀ (f : Nat) (ch : Chapter) (apos t : Token),
      apos.type = .APOSTROPHE → t.type = .IDENTIFIER →
      Chapter.lt ch QUOTING_CHAPTER = false →
      parseExpression ch (f + 4) .NONE (.grp [.tok apos, .tok t]) =
        .ok (.Symbol (toLocation t) t.lexeme, .NONE)) ∧
    (∀ (ty : TokenType) (lex : String) (lit : Literal) (line col : Nat),
      (Token.make ty lex lit line col).endPos =
        ⟨line, col + lex.length - 1⟩ ∧
      (1 ≤ col → (∀ c ∈ lex.toList, c ≠ '\n') →
        (Token.make ty lex lit line col).endPos =
          lexemeEndPos lex line col)) := by
  refine ⟨?_, ?_, ?_, ?_, ?_⟩
  · intro f ch m apos target e1 m1 ha hm hch hpe
    have hch2 : Chapter.lt ch 2 = false := hch
    rcases ha with h | h <;> rcases hm with rfl | rfl <;>
      simp [parseAffectorGroup, unwrapElems, isParenthesizedElems, h,
        validateChapter, hch2, QUOTING_CHAPTER, hpe, Except.bind,
        Bind.bind, pure, Except.pure, Expression.location]
  · intro f ch m elems
    refine ⟨?_, ?_, ?_⟩
    · intro hlen
      simp [parseQuotedGroup, hlen]
    · intro d e1 m1 hud hpe
      have hlen1 : groupLength elems = 1 := by simp [groupLength, hud]
      simp [parseQuotedGroup, hlen1, hud, hpe, Except.bind, Bind.bind,
        pure, Except.pure]
    · intro es tl m1 hlen hdl
      have h0 : (groupLength elems == 0) = false := by
        have hne : groupLength elems ≠ 0 := by omega
        simpa using hne
      have h1 : (groupLength elems == 1) = false := by
        have hne : groupLength elems ≠ 1 := by omega
        simpa using hne
      simp [parseQuotedGroup, h0, h1, hdl, Except.bind, Bind.bind,
        pure, Except.pure]
  · intro elems ft lt hft hlt
    simp [Datum.location, hft, hlt, toLocation, Location.merge]
  · intro f ch apos t ha ht hch
    have hch2 : Chapter.lt ch 2 = false := hch
    simp [parseExpression, parseGroup, parseAffectorGroup, parseToken,
      isSingleTokenElems, isParenthesizedElems, unwrapElems,
      validateChapter, ht, ha, hch2, QUOTING_CHAPTER, Except.map,
      Except.bind, Bind.bind, pure, Except.pure]
  · intro ty lex lit line col
    refine ⟨rfl, ?_⟩
    intro hcol hnl
    show (⟨line, col + lex.length - 1⟩ : Position) = lexemeEndPos lex line col
    rw [lexemeEndPos, foldl_pos_no_newline lex.toList line (col - 1) hnl]
    simp only [Position.mk.injEq, true_and]
    have hlen : lex.toList.length = lex.length := rfl
    omega

/-- Closed witness for C6 amended: a concrete re-quoting merge, the
concrete outer-quote exception, and the single-line exactness of the
end position, all at explicit inputs. -/
theorem span_law_amended_witness :
    parseExpression Option.none 2 .QUOTE (.tok identXTok) =
      .ok (.Symbol (toLocation identXTok) "x", .QUOTE) ∧
    parseAffectorGroup Option.none (2 + 1) .QUOTE
        [.tok aposTok, .tok identXTok] =
      .ok (.ListExpr ((toLocation aposTok).merge
          (Expression.Symbol (toLocation identXTok) "x").location)
        [.Symbol (toLocation aposTok) "quote",
          .Symbol (toLocation identXTok) "x"] Option.none, .QUOTE) ∧
    parseExpression Option.none (0 + 4) .NONE
        (.grp [.tok aposTok, .tok identXTok]) =
      .ok (.Symbol (toLocation identXTok) identXTok.lexeme, .NONE) ∧
    (Token.make .IDENTIFIER "abc" .none 1 2).endPos =
      lexemeEndPos "abc" 1 2 :=
  ⟨rfl,
    span_law_amended.1 2 Option.none .QUOTE aposTok (.tok identXTok)
      (.Symbol (toLocation identXTok) "x") .QUOTE (Or.inl rfl) (Or.inl rfl)
      rfl rfl,
    span_law_amended.2.2.2.1 0 Option.none aposTok identXTok rfl rfl rfl,
    (span_law_amended.2.2.2.2 .IDENTIFIER "abc" .none 1 2).2 (by decide)
      (by decide)⟩

/-- C7 counterexample: the grouping.ts smart constructor accepts a
singleton number token, producing an unparenthesized Group of one
element (not two, and with no affector), so the stated invariant fails;
it moreover rejects the two-element affector-and-target list the claim
requires unparenthesized groups to have. -/
theorem old_group_build_counterexample :
    OldGroup.build [.tok (numTok "1" 1)] = .ok [.tok (numTok "1" 1)] ∧
    ¬ GroupClaimInvariant [.tok (numTok "1" 1)] ∧
    OldGroup.build [.tok aposTok, .tok identXTok] = .error "Invalid group." := by
  refine ⟨rfl, ?_, rfl⟩
  rintro ⟨-, -, h3⟩
  obtain ⟨a, t, he, -⟩ := h3 rfl
  simp at he

/-- C7 amended: every element list the grouping.ts Group.build accepts
is non-empty; a list of two or more elements is accepted exactly when
its first and last elements are a matching delimiter pair (both
directions: anything accepted has matching token ends, and any list
with matching token ends is accepted unchanged); a singleton token
input is accepted exactly when it is a data-type token and is kept as a
one-element unparenthesized group (so unparenthesized groups hold one
data element, never affector pairs); and a singleton group input
collapses to the inner group. -/
theorem old_group_build_amended :
    (∀ (es g : List Datum), OldGroup.build es = .ok g →
      es ≠ [] ∧
      (2 ≤ es.length → g = es ∧
        ∃ l r, es.head? = some (.tok l) ∧ es.getLast? = some (.tok r) ∧
          matchingParentheses l r = true) ∧
      (∀ t, es = [.tok t] → g = [.tok t] ∧ OldGroup.isDataType t = true) ∧
      (∀ inner, es = [.grp inner] → g = inner)) ∧
    (∀ (l r : Token) (mid : List Datum), matchingParentheses l r = true →
      OldGroup.build (.tok l :: (mid ++ [.tok r])) =
        .ok (.tok l :: (mid ++ [.tok r]))) ∧
    (∀ t : Token, OldGroup.isDataType t = true →
      OldGroup.build [.tok t] = .ok [.tok t]) ∧
    (∀ inner : List Datum, OldGroup.build [.grp inner] = .ok inner) := by
  refine ⟨?_, ?_, ?_, ?_⟩
  case refine_2 =>
    intro l r mid hm
    rcases mid with _ | ⟨m1, mid2⟩
    · simp [OldGroup.build, hm]
    · have hform : Datum.tok l :: ((m1 :: mid2) ++ [Datum.tok r]) =
          Datum.tok l :: m1 :: (mid2 ++ [Datum.tok r]) := by simp
      rw [hform]
      have hgl : (Datum.tok l :: m1 :: (mid2 ++ [Datum.tok r])).getLast? =
          some (Datum.tok r) := by
        rw [show Datum.tok l :: m1 :: (mid2 ++ [Datum.tok r]) =
            (Datum.tok l :: m1 :: mid2) ++ [Datum.tok r] by simp]
        exact List.getLast?_concat _
      simp [OldGroup.build, hgl, hm]
  case refine_3 =>
    intro t hd
    simp [OldGroup.build, hd]
  case refine_4 =>
    intro inner
    rfl
  intro es g h
  match es, h with
  | [], h => simp [OldGroup.build] at h
  | [.grp inner], h =>
      have hg : g = inner := by
        have h2 := h
        simp [OldGroup.build] at h2
        exact h2.symm
      subst hg
      refine ⟨by simp, ?_, ?_, ?_⟩
      · intro h2; simp at h2
      · intro t2 ht2; simp at ht2
      · intro i hii
        simp only [List.cons.injEq, Datum.grp.injEq, and_true] at hii
        exact hii
  | [.tok t], h =>
      have hd : OldGroup.isDataType t = true := by
        by_contra hnd
        simp [OldGroup.build, hnd] at h
      have hg : g = [.tok t] := by
        have h2 := h
        simp [OldGroup.build, hd] at h2
        exact h2.symm
      subst hg
      refine ⟨by simp, ?_, ?_, ?_⟩
      · intro h2; simp at h2
      · intro t2 ht2
        have ht3 : t = t2 := by simpa using ht2
        subst ht3
        exact ⟨rfl, hd⟩
      · intro i hii; simp at hii
  | a :: b :: rest, h =>
      obtain ⟨el, hL⟩ : ∃ el, (a :: b :: rest).getLast? = some el := by
        cases hcl : (a :: b :: rest).getLast? with
        | some el => exact ⟨el, rfl⟩
        | none => simp at hcl
      match a, el, hL with
      | .grp g1, _, hL => simp [OldGroup.build, hL] at h
      | .tok l, .grp g2, hL => simp [OldGroup.build, hL] at h
      | .tok l, .tok r, hL =>
        by_cases hm : matchingParentheses l r = true
        · have hg : g = .tok l :: b :: rest := by
            simp [OldGroup.build, hL, hm] at h
            exact h.symm
          subst hg
          refine ⟨by simp, ?_, ?_, ?_⟩
          · intro _
            exact ⟨rfl, l, r, rfl, hL, hm⟩
          · intro t2 ht2; simp at ht2
          · intro i hii; simp at hii
        · simp [OldGroup.build, hL, hm] at h

/-- Closed witness for C7 amended at a concrete parenthesized group,
exercising both the acceptance direction (matching delimiter ends make
the list accepted) and the accepted-shape direction. -/
theorem old_group_build_amended_witness :
    matchingParentheses (mkTok .LEFT_PAREN "(" 1)
      (mkTok .RIGHT_PAREN ")" 3) = true ∧
    OldGroup.build
        (.tok (mkTok .LEFT_PAREN "(" 1) ::
          ([.tok (numTok "2" 2)] ++ [.tok (mkTok .RIGHT_PAREN ")" 3)])) =
      .ok (.tok (mkTok .LEFT_PAREN "(" 1) ::
        ([.tok (numTok "2" 2)] ++ [.tok (mkTok .RIGHT_PAREN ")" 3)])) ∧
    OldGroup.isDataType (numTok "2" 2) = true ∧
    OldGroup.build [.tok (numTok "2" 2)] = .ok [.tok (numTok "2" 2)] ∧
    ([.tok (mkTok .LEFT_PAREN "(" 1), .tok (numTok "2" 2),
      .tok (mkTok .RIGHT_PAREN ")" 3)] : List Datum) ≠ [] :=
  ⟨rfl,
    old_group_build_amended.2.1 (mkTok .LEFT_PAREN "(" 1)
      (mkTok .RIGHT_PAREN ")" 3) [.tok (numTok "2" 2)] rfl,
    rfl,
    old_group_build_amended.2.2.1 (numTok "2" 2) rfl,
    (old_group_build_amended.1
      [.tok (mkTok .LEFT_PAREN "(" 1), .tok (numTok "2" 2),
        .tok (mkTok .RIGHT_PAREN ")" 3)]
      [.tok (mkTok .LEFT_PAREN "(" 1), .tok (numTok "2" 2),
        .tok (mkTok .RIGHT_PAREN ")" 3)] rfl).1⟩

/-- The no-op verifier accepts every element of any list. -/
theorem forM_defaultVerifier (l : List Datum) :
    l.forM defaultVerifier = .ok () := by
  induction l with
  | nil => rfl
  | cons a l ih =>
      simp [List.forM_cons, defaultVerifier, ih, Except.bind, Bind.bind]

/-- C2: destructureList returns no elements and no tail on the empty
list, the parsed single element and no tail on a singleton, and on a
list of two or more datums it inspects the second-to-last element: when
that element is a DOT token the last element is parsed as the tail and
the elements before the dot as the fixed prefix, and otherwise the
whole list is the fixed prefix with no tail. -/
theorem destructure_list_law (f : Nat) (ch : Chapter) (m : QuoteMode) :
    (destructureList ch (f + 1) m [] defaultVerifier =
      .ok (([], Option.none), m)) ∧
    (∀ a, destructureList ch (f + 1) m [a] defaultVerifier =
      (parseExpression ch f m a).map
        (fun em => (([em.1], Option.none), em.2))) ∧
    (∀ (pre : List Datum) (d : Token) (c : Datum), d.type = .DOT →
      destructureList ch (f + 1) m (pre ++ [.tok d, c]) defaultVerifier =
        (do
          let (es, m1) ← parseExprList ch f m pre
          let (ce, m2) ← parseExpression ch f m1 c
          pure ((es, some ce), m2))) ∧
    (∀ (l : List Datum), 2 ≤ l.length →
      (∀ pd : Token, l.dropLast.getLast? = some (.tok pd) →
        pd.type ≠ .DOT) →
      destructureList ch (f + 1) m l defaultVerifier =
        (parseExprList ch f m l).map
          (fun em => ((em.1, Option.none), em.2))) := by
  refine ⟨?_, ?_, ?_, ?_⟩
  · simp [destructureList]
  · intro a
    cases hpe : parseExpression ch f m a with
    | ok em =>
        obtain ⟨e1, m1⟩ := em
        simp [destructureList, defaultVerifier, hpe, Except.map,
          Except.bind, Bind.bind, pure, Except.pure]
    | error e =>
        simp [destructureList, defaultVerifier, hpe, Except.map,
          Except.bind, Bind.bind, pure, Except.pure]
  · intro pre d c hd
    have hsplit : pre ++ [Datum.tok d, c] = (pre ++ [Datum.tok d]) ++ [c] := by
      simp
    have hlast : (pre ++ [Datum.tok d, c]).getLast? = some c := by
      rw [hsplit]
      simp
    have hdl : (pre ++ [Datum.tok d, c]).dropLast = pre ++ [Datum.tok d] := by
      rw [hsplit]
      simp
    have hpen : (pre ++ [Datum.tok d, c]).dropLast.getLast? =
        some (Datum.tok d) := by
      rw [hdl]
      simp
    have hdd : (pre ++ [Datum.tok d, c]).dropLast.dropLast = pre := by
      rw [hdl]
      simp
    rcases pre with _ | ⟨p, pre2⟩
    · simp only [List.nil_append] at hlast hpen hdd ⊢
      simp [destructureList, hd, defaultVerifier, forM_defaultVerifier,
        Except.bind, Bind.bind, pure, Except.pure, List.dropLast,
        List.getLast?]
    · rcases hpp : pre2 ++ [Datum.tok d, c] with _ | ⟨q, rest⟩
      · exact absurd hpp (by simp)
      · have hl2 : (p :: pre2) ++ [Datum.tok d, c] = p :: q :: rest := by
          simp [hpp]
        rw [hl2] at hlast hpen hdd ⊢
        simp only [destructureList]
        rw [hpen, hlast, hdd]
        simp [hd, defaultVerifier, forM_defaultVerifier, Except.bind,
          Bind.bind, pure, Except.pure]
  · intro l hlen hnd
    rcases l with _ | ⟨x, l2⟩
    · simp at hlen
    rcases l2 with _ | ⟨y, rest⟩
    · simp at hlen
    have hdot : (match (x :: y :: rest).dropLast.getLast? with
        | some (.tok pd) => pd.type == .DOT
        | _ => false) = false := by
      cases hq : (x :: y :: rest).dropLast.getLast? with
      | none => simp
      | some el =>
          cases el with
          | tok pd =>
              have := hnd pd hq
              simp [this]
          | grp g => simp
    simp only [destructureList]
    rw [hdot]
    simp [defaultVerifier, forM_defaultVerifier, Except.bind, Bind.bind,
      pure, Except.pure, Except.map]

/-- Closed witness for C2 at the concrete dotted list a b dot c under
QUOTE mode. -/
theorem destructure_list_law_witness :
    (mkTok .DOT "." 5).type = .DOT ∧
    destructureList Option.none (2 + 1) .QUOTE
        ([.tok (mkTok .IDENTIFIER "a" 1), .tok (mkTok .IDENTIFIER "b" 3)] ++
          [.tok (mkTok .DOT "." 5), .tok (mkTok .IDENTIFIER "c" 7)])
        defaultVerifier =
      (do
        let (es, m1) ← parseExprList Option.none 2 .QUOTE
          [.tok (mkTok .IDENTIFIER "a" 1), .tok (mkTok .IDENTIFIER "b" 3)]
        let (ce, m2) ← parseExpression Option.none 2 m1
          (.tok (mkTok .IDENTIFIER "c" 7))
        pure ((es, some ce), m2)) :=
  ⟨rfl,
    (destructure_list_law 2 Option.none .QUOTE).2.2.1
      [.tok (mkTok .IDENTIFIER "a" 1), .tok (mkTok .IDENTIFIER "b" 3)]
      (mkTok .DOT "." 5) (.tok (mkTok .IDENTIFIER "c" 7)) rfl⟩

/-- A character found at an index makes the peek there that character. -/
theorem peekAt_of_get (src : List Char) (i : Nat) (c : Char)
    (h : src.get? i = some c) : Tokenizer.peekAt src i = c := by
  rw [List.get?_eq_getElem?] at h
  simp [Tokenizer.peekAt, List.get?_eq_getElem?, h]

/-- A character found at an index splits the drop there. -/
theorem drop_of_get (src : List Char) (i : Nat) (c : Char)
    (h : src.get? i = some c) :
    src.drop i = c :: src.drop (i + 1) := by
  rw [List.get?_eq_getElem?] at h
  have hlt : i < src.length := by
    by_contra hge
    rw [List.getElem?_eq_none (Nat.le_of_not_lt hge)] at h
    cases h
  have hgs : src[i] = c := by
    rw [List.getElem?_eq_getElem hlt] at h
    injection h
  rw [List.drop_eq_getElem_cons hlt, hgs]

/-- C8: when the next maximal symbol run is exactly the lexeme dot,
minus, or minus-dot, the scanner does not produce a NUMBER token: the
bare dot resolves through the keyword table to the DOT pair-notation
token and the other two to generic SYMBOL tokens. -/
theorem dot_minus_lexemes_not_numbers (src : List Char) (start : Nat) :
    (src.get? start = some '.' →
      Tokenizer.isValidSymbol (Tokenizer.peekAt src (start + 1)) = false →
      Tokenizer.symbolNumberToken src start (start + 1) = (.DOT, start + 1)) ∧
    (src.get? start = some '-' →
      Tokenizer.isValidSymbol (Tokenizer.peekAt src (start + 1)) = false →
      Tokenizer.symbolNumberToken src start (start + 1) =
        (.SYMBOL, start + 1)) ∧
    (src.get? start = some '-' → src.get? (start + 1) = some '.' →
      Tokenizer.isValidSymbol (Tokenizer.peekAt src (start + 2)) = false →
      Tokenizer.symbolNumberToken src start (start + 1) =
        (.SYMBOL, start + 2)) := by
  refine ⟨?_, ?_, ?_⟩
  · intro h1 h2
    have hpk : Tokenizer.peekAt src start = '.' := peekAt_of_get src start _ h1
    have hdrop : src.drop start = '.' :: src.drop (start + 1) :=
      drop_of_get src start _ h1
    have hscan : Tokenizer.symbolNumberScan (src.length + 1) src (start + 1)
        true true = (start + 1, true, true) := by
      simp [Tokenizer.symbolNumberScan, h2]
    have hone : start + 1 - start = 1 := by omega
    have htake : (src.drop start).take (start + 1 - start) = ['.'] := by
      rw [hone, hdrop]
      simp
    simp only [Tokenizer.symbolNumberToken]
    rw [if_neg (show ¬(start + 1 = 0) by omega)]
    rw [show start + 1 - 1 = start from by omega]
    rw [hpk]
    simp only [show (('.' : Char) == '.') = true from rfl]
    rw [hscan]
    simp only [htake]
    rfl
  · intro h1 h2
    have hpk : Tokenizer.peekAt src start = '-' := peekAt_of_get src start _ h1
    have hdrop : src.drop start = '-' :: src.drop (start + 1) :=
      drop_of_get src start _ h1
    have hscan : Tokenizer.symbolNumberScan (src.length + 1) src (start + 1)
        true false = (start + 1, true, false) := by
      simp [Tokenizer.symbolNumberScan, h2]
    have hone : start + 1 - start = 1 := by omega
    have htake : (src.drop start).take (start + 1 - start) = ['-'] := by
      rw [hone, hdrop]
      simp
    simp only [Tokenizer.symbolNumberToken]
    rw [if_neg (show ¬(start + 1 = 0) by omega)]
    rw [show start + 1 - 1 = start from by omega]
    rw [hpk]
    simp only [show (('-' : Char) == '.') = false from rfl]
    rw [hscan]
    simp only [htake]
    rfl
  · intro h1 h2 h3
    have hpk : Tokenizer.peekAt src start = '-' := peekAt_of_get src start _ h1
    have hpk2 : Tokenizer.peekAt src (start + 1) = '.' :=
      peekAt_of_get src (start + 1) _ h2
    have hlt2 : start + 1 < src.length := by
      by_contra hge
      rw [List.get?_eq_getElem?,
        List.getElem?_eq_none (Nat.le_of_not_lt hge)] at h2
      cases h2
    have hdrop : src.drop start = '-' :: src.drop (start + 1) :=
      drop_of_get src start _ h1
    have hdrop2 : src.drop (start + 1) = '.' :: src.drop (start + 2) := by
      have := drop_of_get src (start + 1) _ h2
      simpa using this
    have hflen : src.length = (src.length - 1) + 1 := by omega
    cases hb : (Tokenizer.isDigit (Tokenizer.peekAt src (start + 1 + 1)) ||
        Tokenizer.isWhitespace (Tokenizer.peekAt src (start + 1 + 1))) with
    | true =>
        have hscan : Tokenizer.symbolNumberScan (src.length + 1) src
            (start + 1) true false = (start + 2, true, true) := by
          rw [Tokenizer.symbolNumberScan]
          rw [hpk2]
          simp only [show Tokenizer.isValidSymbol '.' = true from rfl,
            if_true]
          simp only [show Tokenizer.isDigit '.' = false from rfl,
            show (('.' : Char) == '.') = true from rfl, hb]
          rw [hflen, Tokenizer.symbolNumberScan]
          have h3x : Tokenizer.isValidSymbol
              (Tokenizer.peekAt src (start + 1 + 1)) = false := by
            simpa [Nat.add_assoc] using h3
          simp [h3x]
        have htwo : start + 2 - start = 2 := by omega
        have htake : (src.drop start).take (start + 2 - start) = ['-', '.'] := by
          rw [htwo, hdrop, hdrop2]
          simp
        simp only [Tokenizer.symbolNumberToken]
        rw [if_neg (show ¬(start + 1 = 0) by omega)]
        rw [show start + 1 - 1 = start from by omega]
        rw [hpk]
        simp only [show (('-' : Char) == '.') = false from rfl]
        rw [hscan]
        simp only [htake]
        rfl
    | false =>
        have hscan : Tokenizer.symbolNumberScan (src.length + 1) src
            (start + 1) true false = (start + 2, false, false) := by
          rw [Tokenizer.symbolNumberScan]
          rw [hpk2]
          simp only [show Tokenizer.isValidSymbol '.' = true from rfl,
            if_true]
          simp only [show Tokenizer.isDigit '.' = false from rfl,
            show (('.' : Char) == '.') = true from rfl, hb]
          rw [hflen, Tokenizer.symbolNumberScan]
          have h3x : Tokenizer.isValidSymbol
              (Tokenizer.peekAt src (start + 1 + 1)) = false := by
            simpa [Nat.add_assoc] using h3
          simp [h3x]
        have htwo : start + 2 - start = 2 := by omega
        have htake : (src.drop start).take (start + 2 - start) = ['-', '.'] := by
          rw [htwo, hdrop, hdrop2]
          simp
        simp only [Tokenizer.symbolNumberToken]
        rw [if_neg (show ¬(start + 1 = 0) by omega)]
        rw [show start + 1 - 1 = start from by omega]
        rw [hpk]
        simp only [show (('-' : Char) == '.') = false from rfl]
        rw [hscan]
        simp only [htake]
        rfl

/-- Closed witness for C8 on the concrete sources dot-space, minus-space
and minus-dot-space. -/
theorem dot_minus_lexemes_not_numbers_witness :
    (". ".toList.get? 0 = some '.' ∧
      Tokenizer.isValidSymbol (Tokenizer.peekAt ". ".toList 1) = false ∧
      Tokenizer.symbolNumberToken ". ".toList 0 1 = (.DOT, 1)) ∧
    ("- ".toList.get? 0 = some '-' ∧
      Tokenizer.symbolNumberToken "- ".toList 0 1 = (.SYMBOL, 1)) ∧
    ("-. ".toList.get? 0 = some '-' ∧ "-. ".toList.get? 1 = some '.' ∧
      Tokenizer.isValidSymbol (Tokenizer.peekAt "-. ".toList 2) = false ∧
      Tokenizer.symbolNumberToken "-. ".toList 0 1 = (.SYMBOL, 2)) :=
  ⟨⟨rfl, rfl,
      (dot_minus_lexemes_not_numbers ". ".toList 0).1 rfl rfl⟩,
    ⟨rfl,
      (dot_minus_lexemes_not_numbers "- ".toList 0).2.1 rfl rfl⟩,
    ⟨rfl, rfl, rfl,
      (dot_minus_lexemes_not_numbers "-. ".toList 0).2.2 rfl rfl rfl⟩⟩

end ScmSlang
